import Mathlib

/-!
Verification of the filter-and-aggregate query layer of the Railway
Journeys dashboard (src/app.py) against its natural-language
specification.

The embedding is shallow: a dataframe row becomes a `Record`, the
sidebar selections become a `FilterCriteria`, and each pandas
expression of the source becomes an executable Lean definition over
`List Record`:

  * `filtered_df`      - the chain of masks at lines 56-74;
  * `total_journeys`, `total_revenue`, `total_delayed`,
    `total_cancelled`, `total_refund` - the KPI block at lines 79-84;
  * `popular_routes`   - `value_counts().head(10)` at line 110;
  * `hour_counts`      - `groupby("Hour_AM_PM").size()` at line 129;
  * `day_counts`       - `value_counts().reindex([...])` at line 137;
  * `monthly_counts`   - `groupby("Month").size()` at line 150;
  * `delayed_reasons`, `cancel_reasons` - lines 162-163 and 181-182;
  * `revenue_pivot`    - `pivot_table(...).fillna(0)` at lines 202-207.

pandas conventions reflected in the model: `value_counts` drops
missing values and sorts descending by count; `groupby` sorts its keys
in ascending string order; `reindex` fills labels that are absent from
the index with a missing value (modelled as `Option.none`, pandas
`NaN`), not with `0`; `Series.map` with a dict sends unrecognized
values to missing, and `sum` skips missing values.  Python string
comparison is code-point lexicographic, modelled by `charsLe`.
-/

/-- One row of `railway_cleaned.csv` as consumed by the dashboard.
Field names follow the source columns.  `reasonForDelay` is the only
field the spec allows to be missing, hence the only `Option`. -/
structure Record where
  dateOfJourney : ℤ
  hourAMPM : String
  dayOfWeek : String
  month : String
  departureStation : String
  arrivalDestination : String
  route : String
  price : ℚ
  isDelayed : Bool
  isCancelled : Bool
  reasonForDelay : Option String
  refundRequest : String
  ticketType : String
  ticketClass : String
deriving DecidableEq

/-- The sidebar selections of lines 35-51: an inclusive date range and
four multi-select lists, each of which may contain the sentinel
`"All"`. -/
structure FilterCriteria where
  dateStart : ℤ
  dateEnd : ℤ
  selectedHours : List String
  selectedDays : List String
  selectedDepartures : List String
  selectedArrivals : List String
deriving DecidableEq

/-- Date mask of lines 59-62: keep rows inside the inclusive range. -/
def dateStep (c : FilterCriteria) (l : List Record) : List Record :=
  l.filter (fun r => decide (c.dateStart ≤ r.dateOfJourney) && decide (r.dateOfJourney ≤ c.dateEnd))

/-- Lines 64-65: the hour mask is skipped when `"All"` is among the
selected values. -/
def hourStep (sel : List String) (l : List Record) : List Record :=
  if "All" ∈ sel then l else l.filter (fun r => decide (r.hourAMPM ∈ sel))

/-- Lines 67-68: day-of-week mask, same guard. -/
def dayStep (sel : List String) (l : List Record) : List Record :=
  if "All" ∈ sel then l else l.filter (fun r => decide (r.dayOfWeek ∈ sel))

/-- Lines 70-71: departure-station mask, same guard. -/
def departureStep (sel : List String) (l : List Record) : List Record :=
  if "All" ∈ sel then l else l.filter (fun r => decide (r.departureStation ∈ sel))

/-- Lines 73-74: arrival-station mask, same guard. -/
def arrivalStep (sel : List String) (l : List Record) : List Record :=
  if "All" ∈ sel then l else l.filter (fun r => decide (r.arrivalDestination ∈ sel))

/-- The filtered subset of lines 56-74: the five masks applied in
source order. -/
def filtered_df (df : List Record) (c : FilterCriteria) : List Record :=
  arrivalStep c.selectedArrivals
    (departureStep c.selectedDepartures
      (dayStep c.selectedDays
        (hourStep c.selectedHours
          (dateStep c df))))

/-- Conjunction of the active predicates, following the spec text of
section 4.1: the date predicate is always active, and a categorical
dimension restricts membership exactly when it is not treated as
unrestricted.  Per the source guards, "unrestricted" is sentinel
membership. -/
def satisfiesActive (c : FilterCriteria) (r : Record) : Prop :=
  (c.dateStart ≤ r.dateOfJourney ∧ r.dateOfJourney ≤ c.dateEnd) ∧
  ("All" ∈ c.selectedHours ∨ r.hourAMPM ∈ c.selectedHours) ∧
  ("All" ∈ c.selectedDays ∨ r.dayOfWeek ∈ c.selectedDays) ∧
  ("All" ∈ c.selectedDepartures ∨ r.departureStation ∈ c.selectedDepartures) ∧
  ("All" ∈ c.selectedArrivals ∨ r.arrivalDestination ∈ c.selectedArrivals)

instance (c : FilterCriteria) (r : Record) : Decidable (satisfiesActive c r) := by
  unfold satisfiesActive; infer_instance

/-- Line 79. -/
def total_journeys (s : List Record) : ℕ := s.length

/-- Line 80: `filtered_df["Price"].sum()`. -/
def total_revenue (s : List Record) : ℚ := (s.map Record.price).sum

/-- Line 81: summing a boolean column counts its `True` entries. -/
def total_delayed (s : List Record) : ℕ :=
  (s.map (fun r => if r.isDelayed then 1 else 0)).sum

/-- Line 82. -/
def total_cancelled (s : List Record) : ℕ :=
  (s.map (fun r => if r.isCancelled then 1 else 0)).sum

/-- The dict passed to `Series.map` at line 83; values outside the
dict become missing. -/
def refundMap (v : String) : Option ℕ :=
  if v = "Yes" then some 1 else if v = "No" then some 0 else none

/-- Lines 83-84: map the raw column through `refundMap`, then sum,
skipping missing values as pandas `sum` does. -/
def total_refund (s : List Record) : ℕ :=
  ((s.map (fun r => refundMap r.refundRequest)).filterMap id).sum

/-- Python `int()` of line 89 truncates toward zero. -/
def pyTrunc (q : ℚ) : ℤ := q.num.tdiv (q.den : ℤ)

/-- The displayed revenue figure of line 89. -/
def display_revenue (s : List Record) : ℤ := pyTrunc (total_revenue s)

/-- Code-point lexicographic comparison of character lists; this is
the order Python uses on strings and hence the order pandas `groupby`
and `sort` apply to object-dtype keys. -/
def charsLe : List Char → List Char → Bool
  | [], _ => true
  | _ :: _, [] => false
  | a :: as, b :: bs =>
    if a.toNat < b.toNat then true
    else if b.toNat < a.toNat then false
    else charsLe as bs

/-- Lexicographic order on strings, as a sorting relation. -/
def strLeRel (a b : String) : Prop := charsLe a.data b.data = true

instance : DecidableRel strLeRel := fun a b =>
  inferInstanceAs (Decidable (charsLe a.data b.data = true))

/-- Descending-count order on (label, count) pairs, the order
`value_counts` presents its result in. -/
def countGe (a b : String × ℕ) : Prop := b.2 ≤ a.2

instance : DecidableRel countGe := fun a b =>
  inferInstanceAs (Decidable (b.2 ≤ a.2))

instance : IsTotal (String × ℕ) countGe := ⟨fun a b => Nat.le_total b.2 a.2⟩

instance : IsTrans (String × ℕ) countGe := ⟨fun _ _ _ h1 h2 => le_trans h2 h1⟩

theorem charsLe_total : ∀ as bs : List Char, charsLe as bs = true ∨ charsLe bs as = true
  | [], _ => Or.inl rfl
  | _ :: _, [] => Or.inr rfl
  | a :: as, b :: bs => by
    rcases Nat.lt_trichotomy a.toNat b.toNat with h | h | h
    · exact Or.inl (by simp [charsLe, h])
    · rcases charsLe_total as bs with ih | ih
      · exact Or.inl (by simp [charsLe, h, ih])
      · exact Or.inr (by simp [charsLe, h, ih])
    · exact Or.inr (by simp [charsLe, h])

theorem charsLe_trans : ∀ as bs cs : List Char,
    charsLe as bs = true → charsLe bs cs = true → charsLe as cs = true
  | [], _, _ => fun _ _ => rfl
  | _ :: _, [], _ => fun h _ => by simp [charsLe] at h
  | _ :: _, _ :: _, [] => fun _ h => by simp [charsLe] at h
  | a :: as, b :: bs, c :: cs => by
    intro h1 h2
    rcases Nat.lt_trichotomy a.toNat b.toNat with hab | hab | hab
    · rcases Nat.lt_trichotomy b.toNat c.toNat with hbc | hbc | hbc
      · exact by simp [charsLe, lt_trans hab hbc]
      · exact by simp [charsLe, hbc ▸ hab]
      · exfalso; simp [charsLe, hbc, Nat.lt_asymm hbc] at h2
    · rcases Nat.lt_trichotomy b.toNat c.toNat with hbc | hbc | hbc
      · exact by simp [charsLe, hab ▸ hbc]
      · have hac : a.toNat = c.toNat := hab.trans hbc
        have h1' : charsLe as bs = true := by
          simpa [charsLe, hab, Nat.lt_irrefl] using h1
        have h2' : charsLe bs cs = true := by
          simpa [charsLe, hbc, Nat.lt_irrefl] using h2
        simpa [charsLe, hac, Nat.lt_irrefl] using charsLe_trans as bs cs h1' h2'
      · exfalso; simp [charsLe, hbc, Nat.lt_asymm hbc] at h2
    · exfalso; simp [charsLe, hab, Nat.lt_asymm hab] at h1

instance : IsTotal String strLeRel := ⟨fun a b => charsLe_total a.data b.data⟩

instance : IsTrans String strLeRel :=
  ⟨fun a b c h1 h2 => charsLe_trans a.data b.data c.data h1 h2⟩

/-- pandas `Series.value_counts`: distinct (non-missing) values with
their multiplicities, sorted descending by count. -/
def value_counts (xs : List String) : List (String × ℕ) :=
  List.insertionSort countGe (xs.dedup.map (fun v => (v, xs.count v)))

/-- pandas `groupby(col).size()`: distinct keys in ascending string
order, each with its multiplicity. -/
def groupby_size (xs : List String) : List (String × ℕ) :=
  (List.insertionSort strLeRel xs.dedup).map (fun v => (v, xs.count v))

/-- Lookup of a label in an index of (label, count) entries, as
`reindex` performs it. -/
def lookupKey (v : String) : List (String × ℕ) → Option ℕ
  | [] => none
  | (k, n) :: t => if k = v then some n else lookupKey v t

/-- pandas `reindex`: one entry per requested label, looked up in the
given index; absent labels get a missing value. -/
def reindexLabels (labels : List String) (idx : List (String × ℕ)) : List (String × Option ℕ) :=
  labels.map (fun d => (d, lookupKey d idx))

/-- Line 110: `filtered_df["Route"].value_counts().head(10)`. -/
def popular_routes (s : List Record) : List (String × ℕ) :=
  (value_counts (s.map Record.route)).take 10

/-- Line 129: `filtered_df.groupby("Hour_AM_PM").size()`. -/
def hour_counts (s : List Record) : List (String × ℕ) :=
  groupby_size (s.map Record.hourAMPM)

/-- The fixed weekday labels of lines 137-138. -/
def weekdayOrder : List String :=
  ["Sunday", "Monday", "Tuesday", "Wednesday", "Thursday", "Friday", "Saturday"]

/-- Lines 137-138:
`filtered_df["Day_of_Week"].value_counts().reindex([...])`. -/
def day_counts (s : List Record) : List (String × Option ℕ) :=
  reindexLabels weekdayOrder (value_counts (s.map Record.dayOfWeek))

/-- Line 150: `filtered_df.groupby("Month").size()`. -/
def monthly_counts (s : List Record) : List (String × ℕ) :=
  groupby_size (s.map Record.month)

/-- Lines 162-163: restrict to delayed rows, then
`value_counts` of `Reason_for_Delay` (missing reasons dropped). -/
def delayed_reasons (s : List Record) : List (String × ℕ) :=
  value_counts ((s.filter (fun r => r.isDelayed)).filterMap Record.reasonForDelay)

/-- Lines 181-182: same shape as `delayed_reasons` but restricted to
cancelled rows; the reason is read from the same column. -/
def cancel_reasons (s : List Record) : List (String × ℕ) :=
  value_counts ((s.filter (fun r => r.isCancelled)).filterMap Record.reasonForDelay)

/-- Column labels of the pivot of lines 202-207: the distinct ticket
classes, in the ascending key order `pivot_table` uses. -/
def pivotCols (s : List Record) : List String :=
  List.insertionSort strLeRel (s.map Record.ticketClass).dedup

/-- Row labels of the pivot: the distinct ticket types, sorted. -/
def pivotRows (s : List Record) : List String :=
  List.insertionSort strLeRel (s.map Record.ticketType).dedup

/-- Lines 202-207: `pivot_table(index="Ticket Type", columns="Ticket
Class", values="Price", aggfunc="sum").fillna(0)`.  Each row carries a
cell for every column label; a (type, class) pair with no records sums
to `0`, which is what `fillna(0)` leaves there. -/
def revenue_pivot (s : List Record) : List (String × List (String × ℚ)) :=
  (pivotRows s).map (fun t =>
    (t, (pivotCols s).map (fun c =>
      (c, ((s.filter (fun r => decide (r.ticketType = t ∧ r.ticketClass = c))).map Record.price).sum))))

/-- Modelled from the spec: the numeric hour a 12-hour-clock bucket
label encodes, with AM before PM for the same numeral and 12 AM the
start of day.  Used only to compare the source's ordering against the
chronological ordering the spec asks for. -/
def specChronHour (label : String) : ℕ :=
  if label = "12 AM" then 0 else if label = "1 AM" then 1
  else if label = "2 AM" then 2 else if label = "3 AM" then 3
  else if label = "4 AM" then 4 else if label = "5 AM" then 5
  else if label = "6 AM" then 6 else if label = "7 AM" then 7
  else if label = "8 AM" then 8 else if label = "9 AM" then 9
  else if label = "10 AM" then 10 else if label = "11 AM" then 11
  else if label = "12 PM" then 12 else if label = "1 PM" then 13
  else if label = "2 PM" then 14 else if label = "3 PM" then 15
  else if label = "4 PM" then 16 else if label = "5 PM" then 17
  else if label = "6 PM" then 18 else if label = "7 PM" then 19
  else if label = "8 PM" then 20 else if label = "9 PM" then 21
  else if label = "10 PM" then 22 else if label = "11 PM" then 23
  else 24

/-- Modelled from the spec: the activeness rule the claim prescribes —
a categorical dimension is unrestricted only when its selection
literally equals the sentinel set `["All"]`; in every other case
(including a selection that merely contains the sentinel among other
values) the record's field must be a member of the selection.  Used
only to compare the source's sentinel handling against the claim's. -/
def satisfiesLiteralAll (c : FilterCriteria) (r : Record) : Prop :=
  (c.dateStart ≤ r.dateOfJourney ∧ r.dateOfJourney ≤ c.dateEnd) ∧
  (c.selectedHours = ["All"] ∨ r.hourAMPM ∈ c.selectedHours) ∧
  (c.selectedDays = ["All"] ∨ r.dayOfWeek ∈ c.selectedDays) ∧
  (c.selectedDepartures = ["All"] ∨ r.departureStation ∈ c.selectedDepartures) ∧
  (c.selectedArrivals = ["All"] ∨ r.arrivalDestination ∈ c.selectedArrivals)

instance (c : FilterCriteria) (r : Record) : Decidable (satisfiesLiteralAll c r) := by
  unfold satisfiesLiteralAll; infer_instance

/-! Sample data:

Concrete rows used by witnesses and counterexamples.  `rAB1`, `rAB2`,
`rCD` are the three-record scenario of spec section 8. -/

def rAB1 : Record :=
  { dateOfJourney := 1, hourAMPM := "9 AM", dayOfWeek := "Monday", month := "January",
    departureStation := "A", arrivalDestination := "B", route := "A-B", price := 100,
    isDelayed := false, isCancelled := false, reasonForDelay := none,
    refundRequest := "No", ticketType := "Advance", ticketClass := "Standard" }

def rAB2 : Record :=
  { dateOfJourney := 2, hourAMPM := "10 AM", dayOfWeek := "Tuesday", month := "January",
    departureStation := "A", arrivalDestination := "B", route := "A-B", price := 50,
    isDelayed := true, isCancelled := false, reasonForDelay := some "Signal Fault",
    refundRequest := "Maybe", ticketType := "Advance", ticketClass := "First Class" }

def rCD : Record :=
  { dateOfJourney := 3, hourAMPM := "5 PM", dayOfWeek := "Friday", month := "February",
    departureStation := "C", arrivalDestination := "D", route := "C-D", price := 200,
    isDelayed := false, isCancelled := true, reasonForDelay := some "Staff Shortage",
    refundRequest := "Yes", ticketType := "Off-Peak", ticketClass := "Standard" }

def sampleDf : List Record := [rAB1, rAB2, rCD]

/-- All dimensions unrestricted, date range covering the sample. -/
def cAll : FilterCriteria :=
  { dateStart := 0, dateEnd := 10, selectedHours := ["All"], selectedDays := ["All"],
    selectedDepartures := ["All"], selectedArrivals := ["All"] }

/-- Hours selection mixing the sentinel with a specific value. -/
def cMixed : FilterCriteria := { cAll with selectedHours := ["All", "9 AM"] }

/-- Reversed date range. -/
def cReversed : FilterCriteria := { cAll with dateStart := 5, dateEnd := 3 }

/-- Another reversed date range. -/
def cReversed2 : FilterCriteria := { cAll with dateStart := 9, dateEnd := 2 }

/-! The filter chain as a single predicate. -/

theorem hourStep_eq_filter (sel : List String) (l : List Record) :
    hourStep sel l = l.filter (fun r => decide ("All" ∈ sel) || decide (r.hourAMPM ∈ sel)) := by
  by_cases h : "All" ∈ sel <;> simp [hourStep, h]

theorem dayStep_eq_filter (sel : List String) (l : List Record) :
    dayStep sel l = l.filter (fun r => decide ("All" ∈ sel) || decide (r.dayOfWeek ∈ sel)) := by
  by_cases h : "All" ∈ sel <;> simp [dayStep, h]

theorem departureStep_eq_filter (sel : List String) (l : List Record) :
    departureStep sel l =
      l.filter (fun r => decide ("All" ∈ sel) || decide (r.departureStation ∈ sel)) := by
  by_cases h : "All" ∈ sel <;> simp [departureStep, h]

theorem arrivalStep_eq_filter (sel : List String) (l : List Record) :
    arrivalStep sel l =
      l.filter (fun r => decide ("All" ∈ sel) || decide (r.arrivalDestination ∈ sel)) := by
  by_cases h : "All" ∈ sel <;> simp [arrivalStep, h]

theorem filtered_df_eq_filter (df : List Record) (c : FilterCriteria) :
    filtered_df df c = df.filter (fun r => decide (satisfiesActive c r)) := by
  simp only [filtered_df, dateStep, hourStep_eq_filter, dayStep_eq_filter,
    departureStep_eq_filter, arrivalStep_eq_filter, List.filter_filter]
  refine List.filter_congr ?_
  intro r _
  simp only [← Bool.decide_and, ← Bool.decide_or]
  refine decide_eq_decide.mpr ?_
  simp only [satisfiesActive]
  tauto

theorem mem_filtered_df {df : List Record} {c : FilterCriteria} {r : Record} :
    r ∈ filtered_df df c ↔ r ∈ df ∧ satisfiesActive c r := by
  rw [filtered_df_eq_filter]
  simp [List.mem_filter]

theorem filtered_df_sublist (df : List Record) (c : FilterCriteria) :
    (filtered_df df c).Sublist df := by
  rw [filtered_df_eq_filter]
  exact List.filter_sublist df

theorem filtered_df_congr {df : List Record} {c c' : FilterCriteria}
    (h : ∀ r, satisfiesActive c r ↔ satisfiesActive c' r) :
    filtered_df df c = filtered_df df c' := by
  rw [filtered_df_eq_filter, filtered_df_eq_filter]
  exact List.filter_congr (fun r _ => decide_eq_decide.mpr (h r))

/-- C1: for every record sequence and criteria, the filter step keeps
exactly the input records satisfying every active predicate (date
inside the inclusive range, and membership of the record's field in
each restricting selection), preserving the input's relative order. -/
theorem C1_filter_exact (df : List Record) (c : FilterCriteria) :
    filtered_df df c = df.filter (fun r => decide (satisfiesActive c r)) ∧
    (filtered_df df c).Sublist df ∧
    ∀ r : Record, r ∈ filtered_df df c ↔ (r ∈ df ∧ satisfiesActive c r) :=
  ⟨filtered_df_eq_filter df c, filtered_df_sublist df c, fun _ => mem_filtered_df⟩

theorem C1_filter_exact_witness :
    filtered_df sampleDf cAll = sampleDf ∧ (filtered_df sampleDf cAll).Sublist sampleDf :=
  ⟨by decide, (C1_filter_exact sampleDf cAll).2.1⟩

/-- C3 amended: a categorical dimension is treated as unrestricted
exactly when the sentinel `"All"` is a member of its selection: a
selection containing the sentinel among other values behaves
identically to the pure sentinel selection, and when the sentinel is
absent every surviving record's field lies in the selection. -/
theorem C3_sentinel_is_membership (df : List Record) (c : FilterCriteria) :
    ("All" ∈ c.selectedHours →
      filtered_df df c = filtered_df df { c with selectedHours := ["All"] }) ∧
    ("All" ∈ c.selectedDays →
      filtered_df df c = filtered_df df { c with selectedDays := ["All"] }) ∧
    ("All" ∈ c.selectedDepartures →
      filtered_df df c = filtered_df df { c with selectedDepartures := ["All"] }) ∧
    ("All" ∈ c.selectedArrivals →
      filtered_df df c = filtered_df df { c with selectedArrivals := ["All"] }) ∧
    ("All" ∉ c.selectedHours →
      ∀ r ∈ filtered_df df c, r.hourAMPM ∈ c.selectedHours) ∧
    ("All" ∉ c.selectedDays →
      ∀ r ∈ filtered_df df c, r.dayOfWeek ∈ c.selectedDays) ∧
    ("All" ∉ c.selectedDepartures →
      ∀ r ∈ filtered_df df c, r.departureStation ∈ c.selectedDepartures) ∧
    ("All" ∉ c.selectedArrivals →
      ∀ r ∈ filtered_df df c, r.arrivalDestination ∈ c.selectedArrivals) := by
  refine ⟨?_, ?_, ?_, ?_, ?_, ?_, ?_, ?_⟩
  · intro h
    exact filtered_df_congr (fun r => by simp [satisfiesActive, h])
  · intro h
    exact filtered_df_congr (fun r => by simp [satisfiesActive, h])
  · intro h
    exact filtered_df_congr (fun r => by simp [satisfiesActive, h])
  · intro h
    exact filtered_df_congr (fun r => by simp [satisfiesActive, h])
  · intro h r hr
    exact ((mem_filtered_df.mp hr).2).2.1.resolve_left h
  · intro h r hr
    exact ((mem_filtered_df.mp hr).2).2.2.1.resolve_left h
  · intro h r hr
    exact ((mem_filtered_df.mp hr).2).2.2.2.1.resolve_left h
  · intro h r hr
    exact ((mem_filtered_df.mp hr).2).2.2.2.2.resolve_left h

theorem C3_sentinel_is_membership_witness :
    filtered_df sampleDf cMixed = filtered_df sampleDf { cMixed with selectedHours := ["All"] } :=
  (C3_sentinel_is_membership sampleDf cMixed).1 (by decide)

/-- C3 counterexample: with the selection `["All", "9 AM"]` — which
contains the sentinel but does not literally equal the sentinel set —
the code leaves the hour dimension unrestricted and keeps a record
whose hour `"5 PM"` is not in the selection, whereas the claim's
literal-equality semantics (`satisfiesLiteralAll`) would treat the
dimension as active and exclude that record. -/
theorem C3_counterexample :
    filtered_df [rCD] cMixed = [rCD] ∧
    [rCD].filter (fun r => decide (satisfiesLiteralAll cMixed r)) = [] ∧
    cMixed.selectedHours ≠ ["All"] ∧
    rCD.hourAMPM ∉ cMixed.selectedHours :=
  ⟨by decide, by decide, by decide, by decide⟩

/-- C4 amended: the filter step performs no date-range validation; a
criteria whose end date precedes its start date is applied as-is, and
since no record can satisfy both bounds the result is silently the
empty subset.  No error of any kind is raised. -/
theorem C4_no_date_validation (df : List Record) (c : FilterCriteria)
    (h : c.dateEnd < c.dateStart) : filtered_df df c = [] := by
  rw [filtered_df_eq_filter, List.filter_eq_nil_iff]
  intro r _
  simp only [decide_eq_true_eq]
  intro hs
  exact absurd (hs.1.1.trans hs.1.2) (not_le.mpr h)

theorem C4_no_date_validation_witness : filtered_df sampleDf cReversed = [] :=
  C4_no_date_validation sampleDf cReversed (by decide)

/-- C4 counterexample: on a nonempty input and a reversed date range
the filter step evaluates without any error to the empty subset —
rather than failing with a validation error as the claim demands. -/
theorem C4_counterexample :
    filtered_df [rAB1, rCD] cReversed2 = [] ∧
    cReversed2.dateEnd < cReversed2.dateStart ∧
    ([rAB1, rCD] : List Record) ≠ [] :=
  ⟨by decide, by decide, by decide⟩

/-! Facts about value_counts, groupby and reindex. -/

theorem mem_value_counts {xs : List String} {v : String} {n : ℕ} :
    (v, n) ∈ value_counts xs ↔ v ∈ xs ∧ n = xs.count v := by
  unfold value_counts
  rw [List.mem_insertionSort, List.mem_map]
  constructor
  · rintro ⟨a, ha, heq⟩
    rw [Prod.ext_iff] at heq
    obtain ⟨h1, h2⟩ := heq
    subst h1
    exact ⟨List.mem_dedup.mp ha, h2.symm⟩
  · rintro ⟨hv, hn⟩
    exact ⟨v, List.mem_dedup.mpr hv, by rw [hn]⟩

theorem value_counts_sorted (xs : List String) :
    List.Pairwise countGe (value_counts xs) :=
  List.sorted_insertionSort countGe _

theorem value_counts_keys_perm (xs : List String) :
    ((value_counts xs).map Prod.fst).Perm xs.dedup := by
  have h := (List.perm_insertionSort countGe
    (xs.dedup.map (fun v => (v, xs.count v)))).map Prod.fst
  rw [List.map_map] at h
  have h2 : List.map (Prod.fst ∘ fun v => (v, xs.count v)) xs.dedup = xs.dedup :=
    (List.map_congr_left fun a _ => rfl).trans (List.map_id _)
  rw [h2] at h
  exact h

theorem value_counts_keys_nodup (xs : List String) :
    ((value_counts xs).map Prod.fst).Nodup :=
  (value_counts_keys_perm xs).symm.nodup (List.nodup_dedup xs)

theorem lookupKey_eq_some {l : List (String × ℕ)} {v : String} {n : ℕ}
    (hnd : (l.map Prod.fst).Nodup) : lookupKey v l = some n ↔ (v, n) ∈ l := by
  induction l with
  | nil => simp [lookupKey]
  | cons p t ih =>
    obtain ⟨k, m⟩ := p
    rw [List.map_cons, List.nodup_cons] at hnd
    by_cases hk : k = v
    · constructor
      · intro h
        simp only [lookupKey, if_pos hk] at h
        have hm : m = n := Option.some.inj h
        exact List.mem_cons.mpr (Or.inl (by rw [hk, hm]))
      · intro h
        simp only [lookupKey, if_pos hk]
        rcases List.mem_cons.mp h with heq | hmem
        · rw [Prod.ext_iff] at heq
          have h2 : n = m := heq.2
          rw [h2]
        · exfalso
          apply hnd.1
          have hkt : (k, n) ∈ t := by rw [hk]; exact hmem
          exact List.mem_map.mpr ⟨(k, n), hkt, rfl⟩
    · simp only [lookupKey, if_neg hk]
      rw [ih hnd.2]
      constructor
      · exact fun h => List.mem_cons.mpr (Or.inr h)
      · intro h
        rcases List.mem_cons.mp h with heq | hmem
        · rw [Prod.ext_iff] at heq
          exact absurd heq.1.symm hk
        · exact hmem

theorem lookupKey_eq_none {l : List (String × ℕ)} {v : String} :
    lookupKey v l = none ↔ v ∉ l.map Prod.fst := by
  induction l with
  | nil => simp [lookupKey]
  | cons p t ih =>
    obtain ⟨k, m⟩ := p
    by_cases hk : k = v
    · subst hk
      simp [lookupKey]
    · simp [lookupKey, hk, ih, Ne.symm hk]

theorem groupby_size_sorted (xs : List String) :
    List.Pairwise (fun p q : String × ℕ => strLeRel p.1 q.1) (groupby_size xs) := by
  unfold groupby_size
  exact List.Pairwise.map _ (fun a b h => h) (List.sorted_insertionSort strLeRel xs.dedup)

theorem mem_groupby_size {xs : List String} {v : String} {n : ℕ} :
    (v, n) ∈ groupby_size xs ↔ v ∈ xs ∧ n = xs.count v := by
  unfold groupby_size
  rw [List.mem_map]
  constructor
  · rintro ⟨a, ha, heq⟩
    rw [Prod.ext_iff] at heq
    obtain ⟨h1, h2⟩ := heq
    subst h1
    rw [List.mem_insertionSort] at ha
    exact ⟨List.mem_dedup.mp ha, h2.symm⟩
  · rintro ⟨hv, hn⟩
    exact ⟨v, by rw [List.mem_insertionSort]; exact List.mem_dedup.mpr hv, by rw [hn]⟩

theorem day_counts_eq (s : List Record) :
    day_counts s = weekdayOrder.map (fun d =>
      (d, if (s.map Record.dayOfWeek).count d = 0 then none
          else some ((s.map Record.dayOfWeek).count d))) := by
  unfold day_counts reindexLabels
  refine List.map_congr_left ?_
  intro d _
  by_cases h : (s.map Record.dayOfWeek).count d = 0
  · have hnot : d ∉ (value_counts (s.map Record.dayOfWeek)).map Prod.fst := by
      intro hmem
      have hd : d ∈ (s.map Record.dayOfWeek).dedup :=
        (value_counts_keys_perm _).subset hmem
      exact absurd (List.mem_dedup.mp hd) (List.count_eq_zero.mp h)
    simp [lookupKey_eq_none.mpr hnot, h]
  · have hpos : d ∈ s.map Record.dayOfWeek := by
      by_contra hc
      exact h (List.count_eq_zero.mpr hc)
    have hmem : (d, (s.map Record.dayOfWeek).count d) ∈
        value_counts (s.map Record.dayOfWeek) :=
      mem_value_counts.mpr ⟨hpos, rfl⟩
    have hlk := (lookupKey_eq_some (value_counts_keys_nodup _)).mpr hmem
    simp [hlk, h]

/-- C5 amended: the day-of-week projection has exactly 7 entries in
the fixed order Sunday..Saturday; a weekday's entry carries its count
of matching records when that count is nonzero, and a missing value
(pandas `NaN`, not `0`) when no records match — in particular, on the
empty subset all seven values are missing. -/
theorem C5_day_projection (s : List Record) :
    day_counts s = weekdayOrder.map (fun d =>
      (d, if (s.map Record.dayOfWeek).count d = 0 then none
          else some ((s.map Record.dayOfWeek).count d))) ∧
    (day_counts s).map Prod.fst = weekdayOrder ∧
    (day_counts s).length = 7 := by
  exact ⟨day_counts_eq s, rfl, rfl⟩

/-- C5 counterexample: on the empty filtered subset every weekday
entry is the missing value, not `0`. -/
theorem C5_counterexample :
    (day_counts []).map Prod.snd = List.replicate 7 (none : Option ℕ) ∧
    (none : Option ℕ) ≠ some 0 :=
  ⟨by decide, by decide⟩

/-- C6 amended: the by-hour projection lists one (bucket, count) pair
per bucket present, with counts exact and complete, sorted ascending
by code-point lexicographic order of the bucket labels — the order
pandas `groupby` gives string keys — not by the chronological hour the
label encodes. -/
theorem C6_hour_sorted_lex (s : List Record) :
    List.Pairwise (fun p q : String × ℕ => strLeRel p.1 q.1) (hour_counts s) ∧
    (∀ p ∈ hour_counts s, p.2 = (s.map Record.hourAMPM).count p.1 ∧ 0 < p.2) ∧
    (∀ h : String, h ∈ s.map Record.hourAMPM →
      (h, (s.map Record.hourAMPM).count h) ∈ hour_counts s) := by
  refine ⟨groupby_size_sorted _, ?_, ?_⟩
  · rintro ⟨v, n⟩ hp
    obtain ⟨hv, hn⟩ := mem_groupby_size.mp hp
    exact ⟨hn, hn ▸ List.count_pos_iff.mpr hv⟩
  · intro h hh
    exact mem_groupby_size.mpr ⟨hh, rfl⟩

theorem C6_hour_sorted_lex_witness :
    (("10 AM", 1) : String × ℕ).2 = (sampleDf.map Record.hourAMPM).count ("10 AM", 1).1 ∧
    0 < (("10 AM", 1) : String × ℕ).2 :=
  (C6_hour_sorted_lex sampleDf).2.1 ("10 AM", 1) (by decide)

/-- C6 counterexample: with buckets `"9 AM"` and `"10 AM"` the source
orders `"10 AM"` first, although it encodes the later hour — the
output is alphabetical, not chronological. -/
theorem C6_counterexample :
    (hour_counts [rAB1, rAB2]).map Prod.fst = ["10 AM", "9 AM"] ∧
    specChronHour "9 AM" < specChronHour "10 AM" :=
  ⟨by decide, by decide⟩

/-! Facts about the KPI block. -/

theorem total_delayed_eq (s : List Record) :
    total_delayed s = (s.filter (fun r => r.isDelayed)).length := by
  induction s with
  | nil => rfl
  | cons r t ih =>
    simp only [total_delayed, List.map_cons, List.sum_cons] at *
    cases hr : r.isDelayed <;> simp [List.filter_cons, hr, ih, Nat.add_comm]

theorem total_cancelled_eq (s : List Record) :
    total_cancelled s = (s.filter (fun r => r.isCancelled)).length := by
  induction s with
  | nil => rfl
  | cons r t ih =>
    simp only [total_cancelled, List.map_cons, List.sum_cons] at *
    cases hr : r.isCancelled <;> simp [List.filter_cons, hr, ih, Nat.add_comm]

theorem total_refund_eq (s : List Record) :
    total_refund s = (s.filter (fun r => decide (r.refundRequest = "Yes"))).length := by
  induction s with
  | nil => rfl
  | cons r t ih =>
    unfold total_refund at ih ⊢
    by_cases h1 : r.refundRequest = "Yes"
    · have ha : id (refundMap r.refundRequest) = some 1 := by simp [refundMap, h1]
      rw [List.map_cons, List.filterMap_cons_some ha, List.sum_cons, ih,
        List.filter_cons, if_pos (by simpa using h1), List.length_cons]
      omega
    · by_cases h2 : r.refundRequest = "No"
      · have ha : id (refundMap r.refundRequest) = some 0 := by simp [refundMap, h1, h2]
        rw [List.map_cons, List.filterMap_cons_some ha, List.sum_cons, ih,
          List.filter_cons, if_neg (by simpa using h1)]
        omega
      · have ha : id (refundMap r.refundRequest) = none := by simp [refundMap, h1, h2]
        rw [List.map_cons, List.filterMap_cons_none ha, ih,
          List.filter_cons, if_neg (by simpa using h1)]

/-- C2: the KPI bundle — journeys is the record count, revenue the sum
of prices (truncated to an integer for display), delayed and cancelled
the counts of the respective flags, and refund requests the count of
records whose raw value is exactly the recognized `"Yes"`; any other
raw value (`"Maybe"` included) is not counted. -/
theorem C2_kpis (s : List Record) :
    total_journeys s = s.length ∧
    total_revenue s = (s.map Record.price).sum ∧
    display_revenue s = pyTrunc ((s.map Record.price).sum) ∧
    total_delayed s = (s.filter (fun r => r.isDelayed)).length ∧
    total_cancelled s = (s.filter (fun r => r.isCancelled)).length ∧
    total_refund s = (s.filter (fun r => decide (r.refundRequest = "Yes"))).length :=
  ⟨rfl, rfl, rfl, total_delayed_eq s, total_cancelled_eq s, total_refund_eq s⟩

theorem C2_kpis_witness :
    total_refund sampleDf =
      (sampleDf.filter (fun r => decide (r.refundRequest = "Yes"))).length ∧
    total_refund sampleDf = 1 ∧ rAB2.refundRequest = "Maybe" :=
  ⟨(C2_kpis sampleDf).2.2.2.2.2, by decide, by decide⟩

/-! Facts about the reason projections. -/

theorem count_filterMap_reason (l : List Record) (v : String) :
    (l.filterMap Record.reasonForDelay).count v =
      (l.filter (fun r => decide (r.reasonForDelay = some v))).length := by
  induction l with
  | nil => rfl
  | cons r t ih =>
    cases hr : r.reasonForDelay with
    | none => simp [List.filterMap_cons, hr, ih, List.filter_cons]
    | some w =>
      by_cases hw : w = v
      · subst hw
        simp [List.filterMap_cons, hr, ih, List.filter_cons, List.count_cons, Nat.add_comm]
      · simp [List.filterMap_cons, hr, ih, List.filter_cons, List.count_cons, hw]

theorem reason_counts_length {s : List Record} {flag : Record → Bool} (v : String) :
    (((s.filter flag).filterMap Record.reasonForDelay).count v) =
      (s.filter (fun r => flag r && decide (r.reasonForDelay = some v))).length := by
  rw [count_filterMap_reason, List.filter_filter]
  exact congrArg List.length (List.filter_congr (fun r _ => Bool.and_comm _ _))

/-- C9: the delay-reasons projection counts exactly the delayed
records per (non-missing) reason, sorted descending by count with no
cap, and the cancellation-reasons projection is the same computation
over the cancelled records, reading the same reason column. -/
theorem C9_reason_projections (s : List Record) (v : String) (n : ℕ) :
    ((v, n) ∈ delayed_reasons s ↔ 0 < n ∧
      n = (s.filter (fun r => r.isDelayed && decide (r.reasonForDelay = some v))).length) ∧
    List.Pairwise countGe (delayed_reasons s) ∧
    ((v, n) ∈ cancel_reasons s ↔ 0 < n ∧
      n = (s.filter (fun r => r.isCancelled && decide (r.reasonForDelay = some v))).length) ∧
    List.Pairwise countGe (cancel_reasons s) := by
  refine ⟨?_, value_counts_sorted _, ?_, value_counts_sorted _⟩
  · unfold delayed_reasons
    rw [mem_value_counts]
    constructor
    · rintro ⟨hv, hn⟩
      refine ⟨hn ▸ List.count_pos_iff.mpr hv, hn.trans (reason_counts_length v)⟩
    · rintro ⟨hpos, hn⟩
      have hn' : n = ((s.filter (fun r => r.isDelayed)).filterMap Record.reasonForDelay).count v :=
        hn.trans (reason_counts_length v).symm
      exact ⟨List.count_pos_iff.mp (hn' ▸ hpos), hn'⟩
  · unfold cancel_reasons
    rw [mem_value_counts]
    constructor
    · rintro ⟨hv, hn⟩
      refine ⟨hn ▸ List.count_pos_iff.mpr hv, hn.trans (reason_counts_length v)⟩
    · rintro ⟨hpos, hn⟩
      have hn' : n = ((s.filter (fun r => r.isCancelled)).filterMap Record.reasonForDelay).count v :=
        hn.trans (reason_counts_length v).symm
      exact ⟨List.count_pos_iff.mp (hn' ▸ hpos), hn'⟩

theorem C9_reason_projections_witness :
    ("Signal Fault", 1) ∈ delayed_reasons sampleDf ∧
    ("Staff Shortage", 1) ∈ cancel_reasons sampleDf :=
  ⟨(C9_reason_projections sampleDf "Signal Fault" 1).1.mpr ⟨by decide, by decide⟩,
   (C9_reason_projections sampleDf "Staff Shortage" 1).2.2.1.mpr ⟨by decide, by decide⟩⟩

/-- C10: the popular-routes projection returns at most 10 pairs,
ordered descending by count; every returned pair carries the exact
nonzero count of its route, and every route it omits has a count no
larger than any returned one.  The projection is a function of the
subset, so ties are broken deterministically. -/
theorem C10_popular_routes (s : List Record) :
    (popular_routes s).length ≤ 10 ∧
    List.Pairwise countGe (popular_routes s) ∧
    (∀ p ∈ popular_routes s, p.2 = (s.map Record.route).count p.1 ∧ 0 < p.2) ∧
    (∀ v : String, 0 < (s.map Record.route).count v →
      (v, (s.map Record.route).count v) ∈ popular_routes s ∨
      ∀ p ∈ popular_routes s, (s.map Record.route).count v ≤ p.2) := by
  refine ⟨?_, ?_, ?_, ?_⟩
  · exact List.length_take_le 10 _
  · exact List.Pairwise.sublist (List.take_sublist _ _) (value_counts_sorted _)
  · rintro ⟨v, n⟩ hp
    have hp' : (v, n) ∈ value_counts (s.map Record.route) :=
      (List.take_sublist _ _).subset hp
    obtain ⟨hv, hn⟩ := mem_value_counts.mp hp'
    exact ⟨hn, hn ▸ List.count_pos_iff.mpr hv⟩
  · intro v hv
    have hvmem : (v, (s.map Record.route).count v) ∈ value_counts (s.map Record.route) :=
      mem_value_counts.mpr ⟨List.count_pos_iff.mp hv, rfl⟩
    have hsplit := List.take_append_drop 10 (value_counts (s.map Record.route))
    rw [← hsplit, List.mem_append] at hvmem
    rcases hvmem with h | h
    · exact Or.inl h
    · right
      intro p hp
      have hsorted := value_counts_sorted (s.map Record.route)
      rw [← hsplit] at hsorted
      exact (List.pairwise_append.mp hsorted).2.2 p hp _ h

theorem C10_popular_routes_witness :
    (("A-B", 2) : String × ℕ).2 = (sampleDf.map Record.route).count ("A-B", 2).1 ∧
    0 < (("A-B", 2) : String × ℕ).2 :=
  (C10_popular_routes sampleDf).2.2.1 ("A-B", 2) (by decide)

/-! Facts about the revenue pivot. -/

theorem sum_map_filter_partition (xs : List Record) (g : Record → ℚ) (p : Record → Bool) :
    ((xs.filter p).map g).sum + ((xs.filter (fun r => !p r)).map g).sum = (xs.map g).sum := by
  induction xs with
  | nil => simp
  | cons r t ih =>
    rw [List.map_cons, List.sum_cons, ← ih]
    cases hr : p r
    · rw [List.filter_cons, List.filter_cons, if_neg (by simp [hr]), if_pos (by simp [hr]),
        List.map_cons, List.sum_cons]
      ring
    · rw [List.filter_cons, List.filter_cons, if_pos (by simp [hr]), if_neg (by simp [hr]),
        List.map_cons, List.sum_cons]
      ring

theorem sum_over_keys (f : Record → String) (g : Record → ℚ) :
    ∀ (keys : List String) (xs : List Record), keys.Nodup →
      (∀ r ∈ xs, f r ∈ keys) →
      (keys.map (fun k => ((xs.filter (fun r => decide (f r = k))).map g).sum)).sum
        = (xs.map g).sum := by
  intro keys
  induction keys with
  | nil =>
    intro xs _ hcov
    have hxs : xs = [] :=
      List.eq_nil_iff_forall_not_mem.mpr (fun r hr => absurd (hcov r hr) (List.not_mem_nil _))
    subst hxs
    simp
  | cons k ks ih =>
    intro xs hnd hcov
    rw [List.map_cons, List.sum_cons, List.nodup_cons] at *
    have hfix : ∀ k' ∈ ks, xs.filter (fun r => decide (f r = k')) =
        (xs.filter (fun r => !decide (f r = k))).filter (fun r => decide (f r = k')) := by
      intro k' hk'
      calc xs.filter (fun r => decide (f r = k'))
          = xs.filter (fun r => decide (f r = k') && !decide (f r = k)) := by
            refine List.filter_congr ?_
            intro r _
            by_cases h : f r = k'
            · have hne : k' ≠ k := fun hc => hnd.1 (hc ▸ hk')
              simp [h, hne]
            · simp [h]
        _ = (xs.filter (fun r => !decide (f r = k))).filter (fun r => decide (f r = k')) :=
            (List.filter_filter _ _).symm
    have hcov' : ∀ r ∈ xs.filter (fun r => !decide (f r = k)), f r ∈ ks := by
      intro r hr
      rw [List.mem_filter] at hr
      rcases List.mem_cons.mp (hcov r hr.1) with h | h
      · exfalso
        simp [h] at hr
      · exact h
    have hsum : (ks.map (fun k2 => ((xs.filter (fun r => decide (f r = k2))).map g).sum)).sum
        = (ks.map (fun k2 => (((xs.filter (fun r => !decide (f r = k))).filter
            (fun r => decide (f r = k2))).map g).sum)).sum := by
      refine congrArg List.sum (List.map_congr_left ?_)
      intro k' hk'
      rw [hfix k' hk']
    rw [hsum, ih (xs.filter (fun r => !decide (f r = k))) hnd.2 hcov']
    exact sum_map_filter_partition xs g (fun r => decide (f r = k))

theorem pivotCols_nodup (s : List Record) : (pivotCols s).Nodup :=
  (List.perm_insertionSort strLeRel _).symm.nodup (List.nodup_dedup _)

theorem pivotRows_nodup (s : List Record) : (pivotRows s).Nodup :=
  (List.perm_insertionSort strLeRel _).symm.nodup (List.nodup_dedup _)

theorem mem_pivotCols {s : List Record} {c : String} :
    c ∈ pivotCols s ↔ ∃ r ∈ s, r.ticketClass = c := by
  unfold pivotCols
  rw [List.mem_insertionSort, List.mem_dedup, List.mem_map]

theorem mem_pivotRows {s : List Record} {t : String} :
    t ∈ pivotRows s ↔ ∃ r ∈ s, r.ticketType = t := by
  unfold pivotRows
  rw [List.mem_insertionSort, List.mem_dedup, List.mem_map]

theorem revenue_pivot_keys (s : List Record) :
    (revenue_pivot s).map Prod.fst = pivotRows s := by
  unfold revenue_pivot
  rw [List.map_map]
  exact (List.map_congr_left fun a _ => rfl).trans (List.map_id _)

theorem revenue_pivot_total (s : List Record) :
    ((revenue_pivot s).map (fun row => (row.2.map Prod.snd).sum)).sum
      = (s.map Record.price).sum := by
  unfold revenue_pivot
  rw [List.map_map]
  have hrow : ∀ t ∈ pivotRows s,
      ((fun row : String × List (String × ℚ) => (row.2.map Prod.snd).sum) ∘
        (fun t => (t, (pivotCols s).map (fun c =>
          (c, ((s.filter (fun r => decide (r.ticketType = t ∧ r.ticketClass = c))).map
            Record.price).sum))))) t
      = ((s.filter (fun r => decide (r.ticketType = t))).map Record.price).sum := by
    intro t _
    have hinner : ∀ c, s.filter (fun r => decide (r.ticketType = t ∧ r.ticketClass = c)) =
        (s.filter (fun r => decide (r.ticketType = t))).filter
          (fun r => decide (r.ticketClass = c)) := by
      intro c
      rw [List.filter_filter]
      refine List.filter_congr ?_
      intro r _
      simp only [← Bool.decide_and]
      exact decide_eq_decide.mpr (by tauto)
    show (((pivotCols s).map (fun c =>
        (c, ((s.filter (fun r => decide (r.ticketType = t ∧ r.ticketClass = c))).map
          Record.price).sum))).map Prod.snd).sum
      = ((s.filter (fun r => decide (r.ticketType = t))).map Record.price).sum
    rw [List.map_map]
    have hmid : ((pivotCols s).map (Prod.snd ∘ fun c =>
        (c, ((s.filter (fun r => decide (r.ticketType = t ∧ r.ticketClass = c))).map
          Record.price).sum)))
        = ((pivotCols s).map (fun c =>
          (((s.filter (fun r => decide (r.ticketType = t))).filter
            (fun r => decide (r.ticketClass = c))).map Record.price).sum)) := by
      refine List.map_congr_left ?_
      intro c _
      show ((s.filter (fun r => decide (r.ticketType = t ∧ r.ticketClass = c))).map
          Record.price).sum = _
      rw [hinner c]
    rw [hmid]
    refine sum_over_keys Record.ticketClass Record.price (pivotCols s)
      (s.filter (fun r => decide (r.ticketType = t))) (pivotCols_nodup s) ?_
    intro r hr
    exact mem_pivotCols.mpr ⟨r, (List.mem_filter.mp hr).1, rfl⟩
  rw [List.map_congr_left hrow]
  refine sum_over_keys Record.ticketType Record.price (pivotRows s) s (pivotRows_nodup s) ?_
  intro r hr
  exact mem_pivotRows.mpr ⟨r, hr, rfl⟩

theorem map_fst_pair_map {β : Type} (l : List String) (f : String → β) :
    (l.map (fun c => (c, f c))).map Prod.fst = l := by
  rw [List.map_map]
  exact (List.map_congr_left fun a _ => rfl).trans (List.map_id _)

/-- C7: the revenue pivot has one row per ticket type present and one
column per ticket class present (each without duplicates), every row
carries an entry for every column — a (type, class) pair with no
records holds the zero left by `fillna(0)` — each cell is the sum of
prices over its pair, and the cells sum to the total price of the
subset (every record carries both fields, so that is the sum over
records having both). -/
theorem C7_revenue_pivot (s : List Record) :
    ((revenue_pivot s).map Prod.fst).Nodup ∧
    (∀ t : String, t ∈ (revenue_pivot s).map Prod.fst ↔ ∃ r ∈ s, r.ticketType = t) ∧
    (pivotCols s).Nodup ∧
    (∀ c : String, c ∈ pivotCols s ↔ ∃ r ∈ s, r.ticketClass = c) ∧
    (∀ row ∈ revenue_pivot s, row.2.map Prod.fst = pivotCols s) ∧
    (∀ row ∈ revenue_pivot s, ∀ e ∈ row.2,
      e.2 = ((s.filter (fun r =>
        decide (r.ticketType = row.1 ∧ r.ticketClass = e.1))).map Record.price).sum) ∧
    ((revenue_pivot s).map (fun row => (row.2.map Prod.snd).sum)).sum
      = (s.map Record.price).sum := by
  refine ⟨?_, ?_, pivotCols_nodup s, fun c => mem_pivotCols, ?_, ?_, revenue_pivot_total s⟩
  · rw [revenue_pivot_keys]
    exact pivotRows_nodup s
  · intro t
    rw [revenue_pivot_keys]
    exact mem_pivotRows
  · intro row hrow
    unfold revenue_pivot at hrow
    obtain ⟨t, ht, heq⟩ := List.mem_map.mp hrow
    rw [← heq]
    exact map_fst_pair_map (pivotCols s) _
  · intro row hrow e he
    unfold revenue_pivot at hrow
    obtain ⟨t, ht, heq⟩ := List.mem_map.mp hrow
    subst heq
    obtain ⟨c, hc, heq2⟩ := List.mem_map.mp he
    subst heq2
    rfl

theorem C7_revenue_pivot_witness :
    (sampleDf.map Record.price).sum
      = ((revenue_pivot sampleDf).map (fun row => (row.2.map Prod.snd).sum)).sum ∧
    total_revenue sampleDf = 350 :=
  ⟨((C7_revenue_pivot sampleDf).2.2.2.2.2.2).symm,
   by norm_num [total_revenue, sampleDf, rAB1, rAB2, rCD]⟩

/-- C8 amended: every aggregation is a total function of the subset;
on the empty filtered subset the routes, hour, month, reason and pivot
projections return well-formed empty results and the KPIs are all
zero, while the day-of-week projection returns its seven fixed labels
each paired with a missing value (pandas `NaN`), not with zero. -/
theorem C8_empty_subset_behavior :
    popular_routes [] = [] ∧
    hour_counts [] = [] ∧
    monthly_counts [] = [] ∧
    delayed_reasons [] = [] ∧
    cancel_reasons [] = [] ∧
    revenue_pivot [] = [] ∧
    day_counts [] = weekdayOrder.map (fun d => (d, (none : Option ℕ))) ∧
    total_journeys [] = 0 ∧ total_revenue [] = 0 ∧ total_delayed [] = 0 ∧
    total_cancelled [] = 0 ∧ total_refund [] = 0 :=
  ⟨rfl, rfl, rfl, rfl, rfl, rfl, by decide, rfl, rfl, rfl, rfl, rfl⟩

/-- C8 counterexample: the day-of-week projection on the empty subset
is not zero-filled: each of its seven entries holds a missing value,
and no entry holds `0`. -/
theorem C8_counterexample :
    day_counts [] = [("Sunday", none), ("Monday", none), ("Tuesday", none),
      ("Wednesday", none), ("Thursday", none), ("Friday", none), ("Saturday", none)] ∧
    ("Sunday", (some 0 : Option ℕ)) ∉ day_counts [] :=
  ⟨by decide, by decide⟩
